import Mathlib

/-!
Verification development for the cargo-x402 template scaffolder.

The definitions below are a shallow embedding of the core pipeline of the
repository: the manifest schema and its validator (`src/schema/template.rs`,
`src/schema/validator.rs`), the rendering engine (`src/template/render.rs`),
and the parameter-collection fragment of the create command
(`src/commands/create.rs`).

External collaborators that are not part of the repository's own sources
(the regex crate, the semver crate, the Liquid templating engine, the
filesystem and the walkdir traversal) are modelled explicitly; each such
definition carries a doc comment saying what it models and where its
behaviour comes from.
-/

namespace CargoX402

/-- The error enum of `src/error.rs` (variants relevant to the core pipeline;
message payloads are kept as plain strings exactly as in the source). -/
inductive Error where
  | templateNotFound (msg : String)
  | invalidSchema (msg : String)
  | validationError (field : String) (message : String)
  | networkError (msg : String)
  | fileSystemError (msg : String)
  | parameterError (msg : String)
  | renderError (msg : String)
  | githubApiError (msg : String)
  | tomlError (msg : String)
  | cacheError (msg : String)
  | cancelled
  | other (msg : String)
deriving Repr, DecidableEq

/-- The `[template]` metadata section of `x402.toml` (`TemplateMetadata` in
`src/schema/template.rs`). -/
structure TemplateMetadata where
  name : String
  description : String
  version : String
  authors : List String
  repository : String
  tags : List String
  min_rust_version : Option String
  min_x402_cli_version : Option String
deriving Repr, DecidableEq

/-- The tagged parameter variant of `src/schema/template.rs`. -/
inductive Parameter where
  | string (default : String) (pattern : Option String) (description : Option String)
  | boolean (default : Bool) (description : Option String)
  | enum (choices : List String) (default : String) (description : Option String)
deriving Repr, DecidableEq

/-- The `[files]` section of `x402.toml` (`FileRules` in
`src/schema/template.rs`).  The source fields are named `include` and
`exclude`; `include` is a reserved word here, so both carry a
`_patterns` suffix. -/
structure FileRules where
  include_patterns : List String
  exclude_patterns : List String
deriving Repr, DecidableEq

/-- The root schema of `x402.toml` (`TemplateSchema` in
`src/schema/template.rs`).  The Rust `HashMap<String, Parameter>` is
modelled as an association list (one entry per parameter name). -/
structure TemplateSchema where
  template : TemplateMetadata
  parameters : Option (List (String × Parameter))
  files : Option FileRules
deriving Repr, DecidableEq

/-! ## Regex engine model

The repository delegates pattern handling to the external `regex` crate,
whose sources are not part of this repository. -/

/-- Left brace character, used by the template scanners below. -/
def lbrace : Char := Char.ofNat 123

/-- Right brace character, used by the template scanners below. -/
def rbrace : Char := Char.ofNat 125

/-- Split a character list at every occurrence of a separator character;
agrees with `str::split` on a one-character separator (the splitter used
throughout the embedded string processing). -/
def split_on_char (sep : Char) : List Char → List (List Char)
  | [] => [[]]
  | c :: rest =>
    if c == sep then [] :: split_on_char sep rest
    else
      match split_on_char sep rest with
      | [] => [[c]]
      | g :: gs => (c :: g) :: gs

/-- Split a string at every occurrence of a separator character. -/
def split_str (sep : Char) (s : String) : List String :=
  (split_on_char sep s.data).map String.mk

/-- Drop leading and trailing whitespace from a character list. -/
def trim_chars (cs : List Char) : List Char :=
  ((cs.dropWhile Char.isWhitespace).reverse.dropWhile Char.isWhitespace).reverse

/-- Model of `str::starts_with` on strings. -/
def starts_with (s pre : String) : Bool := pre.data.isPrefixOf s.data

/-- Decimal value of a digit string. -/
def chars_to_nat (cs : List Char) : Nat :=
  cs.foldl (fun n c => n * 10 + (c.toNat - 48)) 0

/-- Parse a non-empty all-digit string as a natural number. -/
def parse_nat (s : String) : Option Nat :=
  if !s.data.isEmpty && s.data.all (fun c => decide ('0' ≤ c) && decide (c ≤ '9')) then
    some (chars_to_nat s.data)
  else none

/-- Modelled from the spec: one item of a regex character class
(a single character or an inclusive range). -/
inductive ClsItem where
  | single (c : Char)
  | range (lo hi : Char)
deriving Repr, DecidableEq

/-- Modelled from the spec: a single-character regex atom. -/
inductive RAtom where
  | lit (c : Char)
  | anyChar
  | cls (neg : Bool) (items : List ClsItem)
deriving Repr, DecidableEq

/-- Modelled from the spec: a postfix quantifier on an atom. -/
inductive Quant where
  | one
  | star
  | plus
  | opt
deriving Repr, DecidableEq

/-- Modelled from the spec: a quantified atom. -/
structure RPiece where
  atom : RAtom
  quant : Quant
deriving Repr, DecidableEq

/-- Modelled from the spec: a compiled pattern.  Per the spec, match
semantics are search-anywhere unless the author anchors the pattern with
a leading caret or a trailing dollar, which are recorded here as flags. -/
structure CompiledRegex where
  anchor_start : Bool
  anchor_end : Bool
  pieces : List RPiece
deriving Repr, DecidableEq

/-- Does a character fall in a class item? -/
def cls_item_matches (c : Char) : ClsItem → Bool
  | .single d => c == d
  | .range lo hi => decide (lo.toNat ≤ c.toNat) && decide (c.toNat ≤ hi.toNat)

/-- Does an atom match a character?  The dot atom excludes the newline,
as the external engine's default does. -/
def atom_matches (a : RAtom) (c : Char) : Bool :=
  match a with
  | .lit d => c == d
  | .anyChar => !(c == '\n')
  | .cls neg items =>
    let b := items.any (cls_item_matches c)
    if neg then !b else b

/-- Modelled from the spec: does a piece list match a prefix of the
character list (the whole remainder when `ae`, the end anchor, is set)?
Structural recursion on a fuel counter: every recursive call strictly
decreases the lexicographic measure (input length, piece-list length), so
the fuel supplied by `regex_is_match` is never exhausted. -/
def pieces_match : Nat → List RPiece → List Char → Bool → Bool
  | 0, _, _, _ => false
  | fuel + 1, ps, s, ae =>
    match ps with
    | [] => !ae || s.isEmpty
    | ⟨a, .one⟩ :: rest =>
      match s with
      | [] => false
      | c :: s2 => atom_matches a c && pieces_match fuel rest s2 ae
    | ⟨a, .opt⟩ :: rest =>
      pieces_match fuel rest s ae ||
        (match s with
         | [] => false
         | c :: s2 => atom_matches a c && pieces_match fuel rest s2 ae)
    | ⟨a, .star⟩ :: rest =>
      pieces_match fuel rest s ae ||
        (match s with
         | [] => false
         | c :: s2 => atom_matches a c && pieces_match fuel (⟨a, .star⟩ :: rest) s2 ae)
    | ⟨a, .plus⟩ :: rest =>
      match s with
      | [] => false
      | c :: s2 => atom_matches a c && pieces_match fuel (⟨a, .star⟩ :: rest) s2 ae

/-- Modelled from the spec: `Regex::is_match` searches anywhere in the
string; a leading caret pins the match to the start, a trailing dollar to
the end. -/
def regex_is_match (r : CompiledRegex) (v : String) : Bool :=
  let s := v.data
  let fuel := (s.length + 1) * (r.pieces.length + 1) + 1
  if r.anchor_start then pieces_match fuel r.pieces s r.anchor_end
  else (s.tails).any (fun t => pieces_match fuel r.pieces t r.anchor_end)

/-- Characters that may follow a backslash escape in the modelled fragment. -/
def escapable_chars : List Char :=
  ['\\', '.', '*', '+', '?', '[', ']', '(', ')', '^', '$', '-', '/', '|',
   lbrace, rbrace]

/-- Bare metacharacters that are not a valid atom by themselves in the
modelled fragment. -/
def meta_chars : List Char :=
  ['*', '+', '?', '(', ')', '|', '^', '$', ']', '\\', '[', lbrace, rbrace]

/-- Modelled from the spec: parse the items of a character class up to the
closing bracket.  Fuelled by the input length. -/
def parse_cls_items : Nat → List Char → Option (List ClsItem × List Char)
  | 0, _ => none
  | _ + 1, [] => none
  | fuel + 1, c :: rest =>
    if c == ']' then some ([], rest)
    else
      match rest with
      | '-' :: d :: rest2 =>
        if d == ']' then some ([.single c, .single '-'], rest2)
        else
          match parse_cls_items fuel rest2 with
          | none => none
          | some (items, r) => some (.range c d :: items, r)
      | _ =>
        match parse_cls_items fuel rest with
        | none => none
        | some (items, r) => some (.single c :: items, r)

/-- Modelled from the spec: parse one atom.  Constructs outside the
modelled fragment make compilation fail (return `none`). -/
def parse_atom (cs : List Char) : Option (RAtom × List Char) :=
  match cs with
  | [] => none
  | '\\' :: c :: rest =>
    if escapable_chars.contains c then some (.lit c, rest) else none
  | '.' :: rest => some (.anyChar, rest)
  | '[' :: '^' :: rest =>
    match parse_cls_items (rest.length + 1) rest with
    | none => none
    | some (items, r) => some (.cls true items, r)
  | '[' :: rest =>
    match parse_cls_items (rest.length + 1) rest with
    | none => none
    | some (items, r) => some (.cls false items, r)
  | c :: rest =>
    if meta_chars.contains c then none else some (.lit c, rest)

/-- Modelled from the spec: read an optional postfix quantifier. -/
def parse_quant (cs : List Char) : Quant × List Char :=
  match cs with
  | '*' :: rest => (.star, rest)
  | '+' :: rest => (.plus, rest)
  | '?' :: rest => (.opt, rest)
  | _ => (.one, cs)

/-- Modelled from the spec: parse a sequence of quantified atoms; a final
lone dollar sets the end anchor.  Fuelled by the input length. -/
def parse_pieces : Nat → List Char → Option (List RPiece × Bool)
  | 0, _ => none
  | _ + 1, [] => some ([], false)
  | _ + 1, ['$'] => some ([], true)
  | fuel + 1, cs =>
    match parse_atom cs with
    | none => none
    | some (a, rest) =>
      let (q, rest2) := parse_quant rest
      match parse_pieces fuel rest2 with
      | none => none
      | some (ps, ae) => some (⟨a, q⟩ :: ps, ae)

/-- Modelled from the spec: `Regex::new`.  The external regex engine is
not part of this repository; this model compiles the fragment of regex
syntax the spec relies on (literals, escapes, dot, character classes with
ranges and negation, the star/plus/question quantifiers, and leading and
trailing anchors) and rejects anything outside that fragment. -/
def regex_compile (pattern : String) : Option CompiledRegex :=
  match pattern.data with
  | '^' :: rest =>
    match parse_pieces (rest.length + 1) rest with
    | none => none
    | some (ps, ae) => some ⟨true, ae, ps⟩
  | cs =>
    match parse_pieces (cs.length + 1) cs with
    | none => none
    | some (ps, ae) => some ⟨false, ae, ps⟩

/-! ## Semantic version model

Version strings are checked with the external `semver` crate, whose
sources are not part of this repository. -/

/-- ASCII digit test. -/
def is_digit_char (c : Char) : Bool :=
  decide ('0' ≤ c) && decide (c ≤ '9')

/-- Modelled from the spec: a numeric identifier is a non-empty digit
string without leading zeros. -/
def numeric_ident_ok (s : String) : Bool :=
  !s.isEmpty && s.data.all is_digit_char &&
    (s == "0" || !((s.data.headD '0') == '0'))

/-- Alphanumeric-or-hyphen test used by pre-release and build identifiers. -/
def alnum_hyphen (c : Char) : Bool := c.isAlphanum || c == '-'

/-- Modelled from the spec: a pre-release identifier (non-empty,
alphanumeric or hyphen, numeric identifiers without leading zeros). -/
def prerelease_ident_ok (s : String) : Bool :=
  !s.isEmpty && s.data.all alnum_hyphen &&
    (if s.data.all is_digit_char then s == "0" || !((s.data.headD '0') == '0')
     else true)

/-- Modelled from the spec: a build identifier (non-empty, alphanumeric or
hyphen). -/
def build_ident_ok (s : String) : Bool :=
  !s.isEmpty && s.data.all alnum_hyphen

/-- The MAJOR.MINOR.PATCH core must be three numeric identifiers. -/
def semver_core_ok (core : String) : Bool :=
  match split_str '.' core with
  | [ma, mi, pa] => numeric_ident_ok ma && numeric_ident_ok mi && numeric_ident_ok pa
  | _ => false

/-- Modelled from the spec: `semver::Version::parse`.  The external semver
crate is not part of this repository; per the spec the accepted strings
are a strict MAJOR.MINOR.PATCH core with optional pre-release and build
metadata suffixes. -/
def semver_parse (s : String) : Option (Nat × Nat × Nat) :=
  match split_str '+' s with
  | [] => none
  | core0 :: buildParts =>
    let buildOk : Bool :=
      match buildParts with
      | [] => true
      | [b] => (split_str '.' b).all build_ident_ok
      | _ => false
    let coreAndPre : String × Bool :=
      match split_str '-' core0 with
      | [] => ("", false)
      | [c] => (c, true)
      | c :: preParts =>
        (c, (split_str '.' (String.intercalate "-" preParts)).all prerelease_ident_ok)
    if buildOk && coreAndPre.2 && semver_core_ok coreAndPre.1 then
      match split_str '.' coreAndPre.1 with
      | [ma, mi, pa] =>
        match parse_nat ma, parse_nat mi, parse_nat pa with
        | some a, some b, some c => some (a, b, c)
        | _, _, _ => none
      | _ => none
    else none

/-! ## Parameter validation (`Parameter::validate` in
`src/schema/template.rs`) -/

/-- ASCII lowercasing, modelling `str::to_lowercase` on the ASCII strings
the validator compares against. -/
def to_lowercase (s : String) : String := String.mk (s.data.map Char.toLower)

/-- The accepted boolean literal tokens of `Parameter::validate`. -/
def boolean_tokens : List String := ["true", "false", "yes", "no", "1", "0"]

/-- Embedding of `Parameter::validate` from `src/schema/template.rs`: does a string
value satisfy this parameter's constraint?  Returns the error message on
failure, as the source does with `Result<(), String>`. -/
def Parameter.validate (p : Parameter) (value : String) : Except String Unit :=
  match p with
  | .string _ pat _ =>
    match pat with
    | some ps =>
      match regex_compile ps with
      | none => .error ("Invalid pattern: " ++ ps)
      | some r =>
        if regex_is_match r value then .ok ()
        else .error ("Value '" ++ value ++ "' does not match pattern '" ++ ps ++ "'")
    | none => .ok ()
  | .boolean _ _ =>
    if boolean_tokens.contains (to_lowercase value) then .ok ()
    else .error ("Expected boolean value, got '" ++ value ++ "'")
  | .enum choices _ _ =>
    if choices.contains value then .ok ()
    else .error ("Value '" ++ value ++ "' not in allowed options: " ++ String.intercalate ", " choices)

/-! ## Manifest validator (`src/schema/validator.rs`) -/

/-- Rust `str::len` is the UTF-8 byte length; the validator's length
bounds are byte bounds. -/
def utf8_len (s : String) : Nat := s.utf8ByteSize

/-- Embedding of `Validator::validate_parameter`: structural checks on one declared
parameter (pattern compiles, default satisfies the parameter's own
validation; enum has choices and the default is one of them). -/
def validate_parameter (name : String) (p : Parameter) : Except Error Unit :=
  match p with
  | .string dft pat dsc =>
    match pat with
    | none => .ok ()
    | some ps =>
      match regex_compile ps with
      | none =>
        .error (.validationError ("parameters." ++ name ++ ".pattern") ("Invalid regex: " ++ ps))
      | some _ =>
        match Parameter.validate (.string dft pat dsc) dft with
        | .error e => .error (.validationError ("parameters." ++ name ++ ".default") e)
        | .ok _ => .ok ()
  | .enum choices dft _ =>
    if choices.isEmpty then
      .error (.validationError ("parameters." ++ name ++ ".enum") "Enum must have at least one choice")
    else if choices.contains dft then .ok ()
    else
      .error (.validationError ("parameters." ++ name ++ ".default")
        ("Default value '" ++ dft ++ "' not in enum choices"))
  | .boolean _ _ => .ok ()

/-- Embedding of `Validator::validate_glob_pattern`: only non-emptiness is checked. -/
def validate_glob_pattern (pattern context : String) : Except Error Unit :=
  if pattern = "" then
    .error (.validationError ("files." ++ context) "Glob pattern cannot be empty")
  else .ok ()

/-- The metadata checks of `Validator::validate_schema`, in source order,
short-circuiting on the first failure. -/
def validate_metadata (meta : TemplateMetadata) : Except Error Unit :=
  if meta.name = "" then
    .error (.validationError "template.name" "Template name is required")
  else if 100 < utf8_len meta.name then
    .error (.validationError "template.name" "Template name must be 100 characters or less")
  else if meta.description = "" then
    .error (.validationError "template.description" "Template description is required")
  else if utf8_len meta.description < 10 ∨ 200 < utf8_len meta.description then
    .error (.validationError "template.description" "Description must be 10-200 characters")
  else if (semver_parse meta.version).isNone then
    .error (.validationError "template.version" "Invalid semantic version")
  else if meta.authors.isEmpty then
    .error (.validationError "template.authors" "At least one author is required")
  else if !(starts_with meta.repository "https://github.com/") then
    .error (.validationError "template.repository"
      "Repository must be an HTTPS GitHub URL (https://github.com/...)")
  else if (meta.min_rust_version.map (fun v => (semver_parse v).isNone)).getD false then
    .error (.validationError "template.min_rust_version" "Invalid semantic version")
  else if (meta.min_x402_cli_version.map (fun v => (semver_parse v).isNone)).getD false then
    .error (.validationError "template.min_x402_cli_version" "Invalid semantic version")
  else .ok ()

/-- The parameter loop of `Validator::validate_schema`. -/
def validate_params_loop : List (String × Parameter) → Except Error Unit
  | [] => .ok ()
  | (n, p) :: rest =>
    match validate_parameter n p with
    | .error e => .error e
    | .ok _ => validate_params_loop rest

/-- The glob loop of `Validator::validate_schema` for one rule list. -/
def validate_globs_loop (context : String) : List String → Except Error Unit
  | [] => .ok ()
  | pat :: rest =>
    match validate_glob_pattern pat context with
    | .error e => .error e
    | .ok _ => validate_globs_loop context rest

/-- The `parameters` section check of `Validator::validate_schema`. -/
def validate_params_part (ps : Option (List (String × Parameter))) : Except Error Unit :=
  match ps with
  | some l => validate_params_loop l
  | none => .ok ()

/-- The `files` section check of `Validator::validate_schema`
(include patterns first, then exclude patterns). -/
def validate_files_part (fr : Option FileRules) : Except Error Unit :=
  match fr with
  | some f =>
    match validate_globs_loop "include" f.include_patterns with
    | .error e => .error e
    | .ok _ => validate_globs_loop "exclude" f.exclude_patterns
  | none => .ok ()

/-- Embedding of `Validator::validate_schema`: metadata checks, then the declared
parameters, then the file rules, short-circuiting on the first failure. -/
def validate_schema (schema : TemplateSchema) : Except Error Unit :=
  match validate_metadata schema.template with
  | .error e => .error e
  | .ok _ =>
    match validate_params_part schema.parameters with
    | .error e => .error e
    | .ok _ => validate_files_part schema.files

/-- Embedding of `Validator::load_and_validate`.  Reading `x402.toml` from disk and
TOML-deserializing it are external I/O; their combined outcome is the
`parsed` argument (read failure gives `fileSystemError`, deserialization
failure gives `tomlError`, exactly as in the source).  The validated
schema is returned unchanged on success. -/
def load_and_validate (parsed : Except Error TemplateSchema) : Except Error TemplateSchema :=
  match parsed with
  | .error e => .error e
  | .ok schema =>
    match validate_schema schema with
    | .error e => .error e
    | .ok _ => .ok schema

/-! ## Liquid rendering model (`Renderer::render_content` in
`src/template/render.rs`)

The Liquid templating engine is an external dependency whose sources are
not part of this repository.  The model below follows the spec's account
of it (§4.4 steps 5 and 7, and the P4/P5 properties): bracketed
expressions substitute variables, bracketed-percent blocks gate content
on a variable; an undefined variable renders as empty content; for a
conditional on a plain string value, the spec's reference behaviour is
that the string value `false` (and an undefined variable) is falsy and
any other bound value is truthy. -/

/-- Modelled from the spec: one token of a Liquid template. -/
inductive LTok where
  | textTok (s : String)
  | outputTok (v : String)
  | ifTok (v : String)
  | endifTok
deriving Repr, DecidableEq

/-- Modelled from the spec: one node of a parsed Liquid template. -/
inductive LNode where
  | text (s : String)
  | output (v : String)
  | condBlock (v : String) (body : List LNode)
deriving Repr

/-- Scan up to a two-character closing delimiter whose first character is
`second` and whose second character is a right brace; returns the content
before the delimiter and the remainder after it. -/
def split_at_close (second : Char) : Nat → List Char → Option (List Char × List Char)
  | 0, _ => none
  | _ + 1, [] => none
  | _ + 1, [_] => none
  | fuel + 1, c1 :: c2 :: rest =>
    if c1 == second && c2 == rbrace then some ([], rest)
    else
      match split_at_close second fuel (c2 :: rest) with
      | none => none
      | some (inner, r) => some (c1 :: inner, r)

/-- Flush accumulated text characters (kept in reverse) as a text token. -/
def flush_text (buf : List Char) (acc : List LTok) : List LTok :=
  if buf.isEmpty then acc else .textTok (String.mk buf.reverse) :: acc

/-- Modelled from the spec: recognize the tag keywords the model
supports (`if` with one variable, and `endif`). -/
def parse_tag (cs : List Char) : Option LTok :=
  match ((split_on_char ' ' cs).map String.mk).filter (fun w => !w.isEmpty) with
  | ["if", v] => some (.ifTok v)
  | ["endif"] => some .endifTok
  | _ => none

/-- Modelled from the spec: tokenize a Liquid template.  Fuelled by the
input length; `buf` accumulates pending text characters in reverse and
`acc` accumulates finished tokens in reverse. -/
def tokenize_liquid : Nat → List Char → List Char → List LTok → Option (List LTok)
  | 0, _, _, _ => none
  | _ + 1, [], buf, acc => some (flush_text buf acc).reverse
  | fuel + 1, c :: cs, buf, acc =>
    if c == lbrace then
      match cs with
      | c2 :: rest =>
        if c2 == lbrace then
          match split_at_close rbrace (rest.length + 1) rest with
          | none => none
          | some (inner, r) =>
            tokenize_liquid fuel r []
              (.outputTok (String.mk (trim_chars inner)) :: flush_text buf acc)
        else if c2 == '%' then
          match split_at_close '%' (rest.length + 1) rest with
          | none => none
          | some (inner, r) =>
            match parse_tag (trim_chars inner) with
            | none => none
            | some tok => tokenize_liquid fuel r [] (tok :: flush_text buf acc)
        else tokenize_liquid fuel cs (c :: buf) acc
      | [] => tokenize_liquid fuel cs (c :: buf) acc
    else tokenize_liquid fuel cs (c :: buf) acc

/-- Modelled from the spec: build the node list from tokens, stopping (and
leaving the token in place) at an `endif`.  Fuelled by the token count. -/
def parse_nodes : Nat → List LTok → Option (List LNode × List LTok)
  | 0, _ => none
  | _ + 1, [] => some ([], [])
  | _ + 1, .endifTok :: rest => some ([], .endifTok :: rest)
  | fuel + 1, .textTok s :: rest =>
    match parse_nodes fuel rest with
    | none => none
    | some (ns, r) => some (.text s :: ns, r)
  | fuel + 1, .outputTok v :: rest =>
    match parse_nodes fuel rest with
    | none => none
    | some (ns, r) => some (.output v :: ns, r)
  | fuel + 1, .ifTok v :: rest =>
    match parse_nodes fuel rest with
    | none => none
    | some (body, r) =>
      match r with
      | .endifTok :: r2 =>
        match parse_nodes fuel r2 with
        | none => none
        | some (ns, r3) => some (.condBlock v body :: ns, r3)
      | _ => none

/-- Modelled from the spec: parse a Liquid template into nodes; an
unmatched block is a parse error. -/
def parse_liquid (content : String) : Option (List LNode) :=
  match tokenize_liquid (content.data.length + 1) content.data [] [] with
  | none => none
  | some toks =>
    match parse_nodes (toks.length + 1) toks with
    | none => none
    | some (ns, []) => some ns
    | some (_, _ :: _) => none

/-- Modelled from the spec: truthiness of a conditional on a parameter
value.  An undefined variable is falsy; a bound plain string value is
truthy unless it is the string `false` (spec P5). -/
def is_truthy (params : String → Option String) (v : String) : Bool :=
  match params v with
  | none => false
  | some s => !(s == "false")

mutual

/-- Modelled from the spec: evaluate one node against the value map. -/
def eval_node (params : String → Option String) : LNode → String
  | .text s => s
  | .output v => (params v).getD ""
  | .condBlock v body => if is_truthy params v then eval_nodes params body else ""

/-- Modelled from the spec: evaluate a node list against the value map. -/
def eval_nodes (params : String → Option String) : List LNode → String
  | [] => ""
  | n :: rest => eval_node params n ++ eval_nodes params rest

end

/-- Embedding of `Renderer::render_content`: parse the content as a Liquid template and
render it against the parameter map (each value a plain string scalar); a
parse failure is a `RenderError`.  The engine itself is the spec-modelled
fragment above. -/
def render_content (content : String) (parameters : String → Option String) :
    Except Error String :=
  match parse_liquid content with
  | none => .error (.renderError "Failed to parse template")
  | some nodes => .ok (eval_nodes parameters nodes)

/-! ## Rendering engine filesystem model (`Renderer::render` and
`Renderer::render_file` in `src/template/render.rs`)

File bytes are modelled up to UTF-8 validity: `Content.text s` stands for
a byte sequence that is valid UTF-8 and decodes to `s`; `Content.binaryData bs`
stands for a byte sequence (given as its byte list) that is not valid
UTF-8.  Copying preserves the exact content; `fs::read_to_string`
succeeds exactly on the `text` case. -/

/-- File content up to UTF-8 validity of its bytes. -/
inductive Content where
  | text (s : String)
  | binaryData (bs : List Nat)
deriving Repr, DecidableEq

/-- A source tree: a file with content, or a directory with named
children in listing order. -/
inductive FsNode where
  | file (c : Content)
  | dir (entries : List (String × FsNode))

/-- One entry yielded by the directory walk: the path (relative to the
walk root, as components) and what it is. -/
inductive WalkEntry where
  | dirEntry (path : List String)
  | fileEntry (path : List String) (c : Content)
deriving Repr, DecidableEq

/-- Path of a walk entry. -/
def WalkEntry.path : WalkEntry → List String
  | .dirEntry p => p
  | .fileEntry p _ => p

mutual

/-- The walkdir traversal: depth-first, each directory yielded before its
contents, children in listing order.  Yields every entry under the root,
including the root itself. -/
def walk_node (path : List String) : FsNode → List WalkEntry
  | .file c => [.fileEntry path c]
  | .dir entries => .dirEntry path :: walk_entries path entries

/-- Walk the children of a directory in listing order. -/
def walk_entries (path : List String) : List (String × FsNode) → List WalkEntry
  | [] => []
  | (n, child) :: rest => walk_node (path ++ [n]) child ++ walk_entries path rest

end

/-- The per-entry name filter of `Renderer::render`: keep an entry unless
its file name is exactly `.git` or `x402.toml`.  The walk root itself
(the temporary download directory) passes the filter.  Note this is an
`Iterator::filter` over individual yielded entries, not a subtree prune:
descendants of a skipped directory are still yielded by the walk and are
filtered only by their own file name. -/
def keep_entry (path : List String) : Bool :=
  match path.getLast? with
  | none => true
  | some n => !(n == ".git") && !(n == "x402.toml")

/-- The destination tree: the set of directories created so far and the
files written so far (paths relative to the output root; the root
directory is the empty path). -/
structure DestFs where
  dirs : List (List String)
  files : List (List String × Content)
deriving Repr, DecidableEq

/-- Does the destination contain this directory? -/
def has_dir (fs : DestFs) (p : List String) : Bool := fs.dirs.contains p

/-- All prefixes of a path, from the empty path up to the path itself. -/
def prefixes_of (p : List String) : List (List String) :=
  (List.range (p.length + 1)).map (fun k => p.take k)

/-- Model of `fs::create_dir_all`: creates the directory and every missing
ancestor; creating an existing directory is not an error. -/
def create_dir_all (fs : DestFs) (p : List String) : DestFs :=
  { fs with dirs := fs.dirs ++ (prefixes_of p).filter (fun q => !(fs.dirs.contains q)) }

/-- Model of `fs::write`: writes the file, failing when the parent directory does
not exist. -/
def write_file (fs : DestFs) (p : List String) (c : Content) : Except Error DestFs :=
  if has_dir fs p.dropLast then .ok { fs with files := fs.files ++ [(p, c)] }
  else .error (.fileSystemError "Cannot write file: No such file or directory")

/-- Model of `fs::copy`: copies the bytes unchanged, failing when the destination
parent directory does not exist. -/
def copy_file (fs : DestFs) (p : List String) (c : Content) : Except Error DestFs :=
  if has_dir fs p.dropLast then .ok { fs with files := fs.files ++ [(p, c)] }
  else .error (.fileSystemError "Cannot copy file: No such file or directory")

/-- Model of `Path::extension` on a file name: the part after the final dot, or
none when there is no dot or the name starts with its only dot. -/
def path_extension (name : String) : Option String :=
  match split_str '.' name with
  | [] => none
  | [_] => none
  | ["", _] => none
  | parts => parts.getLast?

/-- The fixed binary extension set of `Renderer::is_binary_file`. -/
def binary_extensions : List String :=
  ["png", "jpg", "jpeg", "gif", "ico", "bin", "zip", "tar", "gz"]

/-- Embedding of `Renderer::is_binary_file`: extension-based classification,
case-insensitive; a file with no extension is not binary. -/
def is_binary_file (fileName : String) : Bool :=
  match path_extension fileName with
  | none => false
  | some ext => binary_extensions.contains (to_lowercase ext)

/-- Embedding of `Renderer::render_file`: binary files (by extension) are copied
byte-for-byte; other files are read as UTF-8 (a decode failure is a
`RenderError`), rendered with Liquid, and the rendered text written. -/
def render_file (fs : DestFs) (fileName : String) (destPath : List String)
    (c : Content) (parameters : String → Option String) : Except Error DestFs :=
  if is_binary_file fileName then copy_file fs destPath c
  else
    match c with
    | .binaryData _ =>
      .error (.renderError "Cannot read file: stream did not contain valid UTF-8")
    | .text s =>
      match render_content s parameters with
      | .error e => .error e
      | .ok rendered => write_file fs destPath (.text rendered)

/-- One step of the walk loop in `Renderer::render`: directories are
recreated at the mirrored relative path, files are rendered or copied. -/
def render_step (parameters : String → Option String) (fs : DestFs) :
    WalkEntry → Except Error DestFs
  | .dirEntry p => .ok (create_dir_all fs p)
  | .fileEntry p c => render_file fs ((p.getLast?).getD "") p c parameters

/-- Embedding of `Renderer::render`: create the output root, then walk the source tree,
keep entries passing the name filter, and process each in walk order,
aborting on the first failure. -/
def render (src : FsNode) (parameters : String → Option String) : Except Error DestFs :=
  let fs0 : DestFs := { dirs := [[]], files := [] }
  ((walk_node [] src).filter (fun e => keep_entry e.path)).foldlM
    (render_step parameters) fs0

/-! ## Parameter collection (`execute` in `src/commands/create.rs`,
steps 5 of the create command) -/

/-- Insertion into the `HashMap<String, String>` value map, modelled as a
lookup function: the newly inserted binding shadows any previous one. -/
def map_insert (m : String → Option String) (k v : String) : String → Option String :=
  fun q => if q = k then some v else m q

/-- Model of `HashMap::extend`: insert every pair in order, later pairs last. -/
def map_extend (m : String → Option String) (kvs : List (String × String)) :
    String → Option String :=
  kvs.foldl (fun acc kv => map_insert acc kv.1 kv.2) m

/-- The four built-in bindings inserted first by `execute`
(`project_name`, `author`, `version`, `date`, in source order). -/
def builtin_params (project_name author version date : String) :
    String → Option String :=
  map_insert (map_insert (map_insert (map_insert (fun _ => none)
    "project_name" project_name) "author" author) "version" version) "date" date

/-- The reserved built-in parameter names. -/
def builtin_names : List String := ["project_name", "author", "version", "date"]

/-- The value-map construction of `execute`: built-ins inserted first,
then the map extended with the manifest-sourced values collected by the
prompt (one pair per declared parameter, values chosen by the external
value source). -/
def collect_parameters (project_name author version date : String)
    (custom : List (String × String)) : String → Option String :=
  map_extend (builtin_params project_name author version date) custom

/-! ## Derived predicates and concrete instances used by the theorems -/

/-- The per-parameter well-formedness facts promised by §4.2 step 8 of
the spec: a String parameter's pattern compiles and its default satisfies
the parameter's own validation; an Enum parameter has a non-empty choice
list containing its default; a Boolean parameter has no extra constraint. -/
def param_spec_ok (p : Parameter) : Prop :=
  match p with
  | .string dft pat dsc =>
    (∀ x, pat = some x → (regex_compile x).isSome) ∧
      Parameter.validate (.string dft pat dsc) dft = .ok ()
  | .enum choices dft _ => choices ≠ [] ∧ dft ∈ choices
  | .boolean _ _ => True

/-- The conditional template of spec property P5. -/
def p5_template : String :=
  "\x7b% if enable_docker %\x7dDocker enabled\x7b% endif %\x7d"

/-- A template referencing a variable absent from the value map. -/
def missing_var_template : String := "Hello \x7b\x7b missing \x7d\x7d!"

/-- A source tree whose `.git` directory has a subdirectory with a file
in it, next to the manifest and a normal sibling file. -/
def git_subtree_source : FsNode :=
  .dir [("x402.toml", .file (.text "[template]")),
        ("README.md", .file (.text "hello")),
        (".git", .dir [("objects", .dir [("pack", .file (.text "P"))])])]

/-- A source tree whose `.git` directory directly contains a file. -/
def git_file_source : FsNode :=
  .dir [("x402.toml", .file (.text "[template]")),
        ("README.md", .file (.text "hello")),
        (".git", .dir [("config", .file (.text "x"))])]

/-- Valid metadata used by concrete witnesses. -/
def sample_metadata : TemplateMetadata :=
  { name := "demo"
    description := "a demo template schema"
    version := "1.0.0"
    authors := ["someone"]
    repository := "https://github.com/acme/demo"
    tags := []
    min_rust_version := some "1.70.0"
    min_x402_cli_version := none }

/-- The pattern of spec property P2. -/
def p2_pattern : String := "^[a-z][a-z0-9-]*$"

/-- The compiled form of `p2_pattern` under the modelled engine. -/
def p2_regex : CompiledRegex :=
  (regex_compile p2_pattern).getD ⟨false, false, []⟩

/-- A schema declaring one String parameter with the P2 pattern and the
default `my-app`. -/
def p2_schema : TemplateSchema :=
  { template := sample_metadata
    parameters := some [("app_name", .string "my-app" (some p2_pattern) none)]
    files := none }

/-- A schema declaring one Enum parameter with choices postgres/sqlite
and default postgres. -/
def p3_schema : TemplateSchema :=
  { template := sample_metadata
    parameters := some [("db", .enum ["postgres", "sqlite"] "postgres" none)]
    files := none }

/-- A fully valid schema exercising every section, used by the C6 witness. -/
def full_schema : TemplateSchema :=
  { template := sample_metadata
    parameters := some
      [("app_name", .string "my-app" (some p2_pattern) none),
       ("db", .enum ["postgres", "sqlite"] "postgres" none),
       ("use_docker", .boolean true none)]
    files := some { include_patterns := ["src/**"], exclude_patterns := ["target/**"] } }

/-! ## Helper lemmas -/

theorem validate_schema_ok_iff (s : TemplateSchema) :
    validate_schema s = .ok () ↔
      (validate_metadata s.template = .ok () ∧
        validate_params_part s.parameters = .ok () ∧
        validate_files_part s.files = .ok ()) := by
  unfold validate_schema
  cases h1 : validate_metadata s.template with
  | error e => simp
  | ok u =>
    cases u
    cases h2 : validate_params_part s.parameters with
    | error e => simp
    | ok u2 => cases u2; simp

theorem load_and_validate_ok_iff (s : TemplateSchema) :
    load_and_validate (.ok s) = .ok s ↔ validate_schema s = .ok () := by
  simp only [load_and_validate]
  cases h : validate_schema s with
  | error e => simp [h]
  | ok u => cases u; simp [h]

theorem load_and_validate_error_of (s : TemplateSchema) (e : Error)
    (h : validate_schema s = .error e) : load_and_validate (.ok s) = .error e := by
  simp only [load_and_validate, h]

theorem validate_params_loop_ok_iff (ps : List (String × Parameter)) :
    validate_params_loop ps = .ok () ↔
      ∀ q ∈ ps, validate_parameter q.1 q.2 = .ok () := by
  induction ps with
  | nil => simp [validate_params_loop]
  | cons hd tl ih =>
    obtain ⟨n, p⟩ := hd
    simp only [validate_params_loop]
    cases h : validate_parameter n p with
    | error e => simp [h]
    | ok u => cases u; simp [h, ih]

theorem validate_params_loop_error_mem (ps : List (String × Parameter)) (e : Error)
    (h : validate_params_loop ps = .error e) :
    ∃ q ∈ ps, validate_parameter q.1 q.2 = .error e := by
  induction ps with
  | nil => simp [validate_params_loop] at h
  | cons hd tl ih =>
    obtain ⟨n, p⟩ := hd
    simp only [validate_params_loop] at h
    cases hq : validate_parameter n p with
    | error e2 =>
      simp only [hq] at h
      injection h with he
      subst he
      exact ⟨(n, p), by simp, hq⟩
    | ok u =>
      cases u
      simp only [hq] at h
      obtain ⟨q, hqm, hqe⟩ := ih h
      exact ⟨q, by simp [hqm], hqe⟩

theorem validate_globs_loop_ok_iff (ctx : String) (l : List String) :
    validate_globs_loop ctx l = .ok () ↔ ∀ p ∈ l, p ≠ "" := by
  induction l with
  | nil => simp [validate_globs_loop]
  | cons hd tl ih =>
    simp only [validate_globs_loop, validate_glob_pattern]
    by_cases h : hd = "" <;> simp [h, ih]

theorem validate_metadata_ok_facts (meta : TemplateMetadata)
    (h : validate_metadata meta = .ok ()) :
    meta.name ≠ "" ∧ utf8_len meta.name ≤ 100 ∧
      10 ≤ utf8_len meta.description ∧ utf8_len meta.description ≤ 200 ∧
      (semver_parse meta.version).isSome = true ∧
      meta.authors ≠ [] ∧
      starts_with meta.repository "https://github.com/" = true ∧
      (∀ v, meta.min_rust_version = some v → (semver_parse v).isSome = true) ∧
      (∀ v, meta.min_x402_cli_version = some v → (semver_parse v).isSome = true) := by
  unfold validate_metadata at h
  split_ifs at h with h1 h2 h3 h4 h5 h6 h7 h8 h9
  push_neg at h4
  refine ⟨h1, by omega, by omega, by omega, ?_, ?_, ?_, ?_, ?_⟩
  · rw [Option.isNone_iff_eq_none] at h5
    exact Option.isSome_iff_ne_none.mpr h5
  · intro hc
    rw [hc] at h6
    simp [List.isEmpty_iff] at h6
  · simpa using h7
  · intro v hv
    rw [hv] at h8
    simp only [Option.map_some', Option.getD_some] at h8
    rw [Option.isNone_iff_eq_none] at h8
    exact Option.isSome_iff_ne_none.mpr h8
  · intro v hv
    rw [hv] at h9
    simp only [Option.map_some', Option.getD_some] at h9
    rw [Option.isNone_iff_eq_none] at h9
    exact Option.isSome_iff_ne_none.mpr h9

theorem validate_parameter_ok_param_spec (n : String) (p : Parameter)
    (h : validate_parameter n p = .ok ()) : param_spec_ok p := by
  cases p with
  | string dft pat dsc =>
    cases pat with
    | none => exact ⟨by intro x hx; exact Option.noConfusion hx, rfl⟩
    | some ps =>
      simp only [validate_parameter] at h
      cases hc : regex_compile ps with
      | none => rw [hc] at h; exact Except.noConfusion h
      | some r =>
        rw [hc] at h
        cases hv : Parameter.validate (.string dft (some ps) dsc) dft with
        | error e => rw [hv] at h; exact Except.noConfusion h
        | ok u =>
          cases u
          refine ⟨?_, hv⟩
          intro x hx
          cases hx
          rw [hc]
          rfl
  | boolean b dsc => trivial
  | enum choices dft dsc =>
    simp only [validate_parameter] at h
    by_cases he : choices.isEmpty = true
    · rw [if_pos he] at h; exact Except.noConfusion h
    · rw [if_neg he] at h
      by_cases hm : choices.contains dft = true
      · refine ⟨?_, by simpa using hm⟩
        intro hnil
        rw [hnil] at he
        simp at he
      · rw [if_neg hm] at h
        exact Except.noConfusion h

theorem validate_parameter_enum_ok_iff (n : String) (choices : List String)
    (dft : String) (dsc : Option String) :
    validate_parameter n (.enum choices dft dsc) = .ok () ↔
      (choices ≠ [] ∧ dft ∈ choices) := by
  simp only [validate_parameter]
  by_cases he : choices.isEmpty = true
  · simp [he, List.isEmpty_iff.mp he]
  · have hne : choices ≠ [] := by
      intro hnil; rw [hnil] at he; simp at he
    by_cases hm : choices.contains dft = true <;> simp_all

theorem map_extend_not_mem (kvs : List (String × String))
    (m : String → Option String) (n : String)
    (h : n ∉ kvs.map Prod.fst) : map_extend m kvs n = m n := by
  induction kvs generalizing m with
  | nil => rfl
  | cons hd tl ih =>
    obtain ⟨k, w⟩ := hd
    have hk : n ≠ k := by
      intro he; exact h (by simp [he])
    have htl : n ∉ tl.map Prod.fst := by
      intro hm; exact h (by simp [hm])
    have hstep : map_extend m ((k, w) :: tl) = map_extend (map_insert m k w) tl := rfl
    rw [hstep, ih (map_insert m k w) htl]
    simp [map_insert, hk]

theorem map_extend_mem_nodup (kvs : List (String × String))
    (m : String → Option String) (n v : String)
    (hnd : (kvs.map Prod.fst).Nodup) (hmem : (n, v) ∈ kvs) :
    map_extend m kvs n = some v := by
  induction kvs generalizing m with
  | nil => simp at hmem
  | cons hd tl ih =>
    obtain ⟨k, w⟩ := hd
    have hstep : map_extend m ((k, w) :: tl) = map_extend (map_insert m k w) tl := rfl
    rw [hstep]
    have hnd2 : List.Nodup (k :: tl.map Prod.fst) := by simpa using hnd
    rcases List.mem_cons.mp hmem with heq | htl
    · injection heq with hn hv
      subst hn; subst hv
      have hk : n ∉ tl.map Prod.fst := (List.nodup_cons.mp hnd2).1
      rw [map_extend_not_mem tl (map_insert m n v) n hk]
      simp [map_insert]
    · exact ih (map_insert m k w) (List.nodup_cons.mp hnd2).2 htl

/-! ## Claim theorems -/

/-- C1: rendering the P5 conditional template binds the block to the
`enable_docker` value: any value map binding it to the string `true`
yields exactly `Docker enabled`, and any map binding it to the string
`false` yields the empty string, regardless of other entries. -/
theorem conditional_rendering_p5 (m : String → Option String) :
    (m "enable_docker" = some "true" →
      render_content p5_template m = .ok "Docker enabled") ∧
    (m "enable_docker" = some "false" →
      render_content p5_template m = .ok "") := by
  have hp : parse_liquid p5_template =
      some [LNode.condBlock "enable_docker" [LNode.text "Docker enabled"]] := rfl
  constructor <;> intro h <;>
    · simp only [render_content, hp, eval_nodes, eval_node, is_truthy, h]
      rfl

theorem conditional_rendering_p5_witness :
    ((fun q => if q = "enable_docker" then some "true" else none) "enable_docker"
        = some "true") ∧
    render_content p5_template
      (fun q => if q = "enable_docker" then some "true" else none) = .ok "Docker enabled" ∧
    ((fun q => if q = "enable_docker" then some "false" else none) "enable_docker"
        = some "false") ∧
    render_content p5_template
      (fun q => if q = "enable_docker" then some "false" else none) = .ok "" := by
  refine ⟨rfl, ?_, rfl, ?_⟩
  · exact (conditional_rendering_p5 _).1 rfl
  · exact (conditional_rendering_p5 _).2 rfl

/-- C3: rendering a template that parses succeeds for every value map,
producing the evaluation of its nodes; a substitution referencing a name
absent from the map contributes empty content instead of failing. -/
theorem missing_variable_renders_empty (content : String)
    (m : String → Option String) (ast : List LNode)
    (hp : parse_liquid content = some ast) :
    render_content content m = .ok (eval_nodes m ast) ∧
    (∀ nm, m nm = none → eval_nodes m [LNode.output nm] = "") := by
  constructor
  · simp only [render_content, hp]
  · intro nm hnm
    simp only [eval_nodes, eval_node, hnm]
    rfl

theorem missing_variable_renders_empty_witness :
    parse_liquid missing_var_template =
      some [LNode.text "Hello ", LNode.output "missing", LNode.text "!"] ∧
    render_content missing_var_template (fun _ => none) = .ok "Hello !" := by
  refine ⟨rfl, ?_⟩
  have h := missing_variable_renders_empty missing_var_template (fun _ => none)
    [LNode.text "Hello ", LNode.output "missing", LNode.text "!"] rfl
  exact h.1

/-- C4: when the manifest declares a parameter whose name collides with a
built-in name, the collected value map binds that name to the
manifest-sourced value: built-ins are inserted first and the map is then
extended with the prompt-collected values, so the last write wins. -/
theorem manifest_value_wins_over_builtin
    (project_name author version date n v : String)
    (custom : List (String × String))
    (hnd : (custom.map Prod.fst).Nodup)
    (hmem : (n, v) ∈ custom)
    (_hbuiltin : n ∈ builtin_names) :
    collect_parameters project_name author version date custom n = some v :=
  map_extend_mem_nodup custom
    (builtin_params project_name author version date) n v hnd hmem

theorem manifest_value_wins_over_builtin_witness :
    ([("author", "Manifest Author")].map Prod.fst).Nodup ∧
    ("author", "Manifest Author") ∈ [("author", "Manifest Author")] ∧
    "author" ∈ builtin_names ∧
    collect_parameters "proj" "Builtin Author" "0.1.0" "2024-01-01"
      [("author", "Manifest Author")] "author" = some "Manifest Author" := by
  refine ⟨by simp, by simp, by decide, ?_⟩
  exact manifest_value_wins_over_builtin "proj" "Builtin Author" "0.1.0" "2024-01-01"
    "author" "Manifest Author" [("author", "Manifest Author")] (by simp) (by simp) (by decide)

/-- C6: every manifest returned by `load_and_validate` satisfies all the
constraints of §4.2 — there is no partially-valid accepted manifest.
Name and description bounds are the source's UTF-8 byte-length bounds. -/
theorem validated_schema_invariants (s : TemplateSchema)
    (h : validate_schema s = .ok ()) :
    s.template.name ≠ "" ∧ utf8_len s.template.name ≤ 100 ∧
    10 ≤ utf8_len s.template.description ∧ utf8_len s.template.description ≤ 200 ∧
    (semver_parse s.template.version).isSome = true ∧
    s.template.authors ≠ [] ∧
    starts_with s.template.repository "https://github.com/" = true ∧
    (∀ v, s.template.min_rust_version = some v → (semver_parse v).isSome = true) ∧
    (∀ v, s.template.min_x402_cli_version = some v → (semver_parse v).isSome = true) ∧
    (∀ ps, s.parameters = some ps →
      ∀ q ∈ ps, validate_parameter q.1 q.2 = .ok () ∧ param_spec_ok q.2) ∧
    (∀ fr, s.files = some fr →
      (∀ p ∈ fr.include_patterns, p ≠ "") ∧ (∀ p ∈ fr.exclude_patterns, p ≠ "")) := by
  obtain ⟨hm, hp, hf⟩ := (validate_schema_ok_iff s).mp h
  obtain ⟨f1, f2, f3, f4, f5, f6, f7, f8, f9⟩ := validate_metadata_ok_facts _ hm
  refine ⟨f1, f2, f3, f4, f5, f6, f7, f8, f9, ?_, ?_⟩
  · intro ps hps q hq
    rw [hps] at hp
    simp only [validate_params_part] at hp
    have hone := (validate_params_loop_ok_iff ps).mp hp q hq
    exact ⟨hone, validate_parameter_ok_param_spec q.1 q.2 hone⟩
  · intro fr hfr
    rw [hfr] at hf
    simp only [validate_files_part] at hf
    cases hg : validate_globs_loop "include" fr.include_patterns with
    | error e => rw [hg] at hf; exact Except.noConfusion hf
    | ok u =>
      cases u
      rw [hg] at hf
      exact ⟨(validate_globs_loop_ok_iff _ _).mp hg,
        (validate_globs_loop_ok_iff _ _).mp hf⟩

theorem validated_schema_invariants_witness :
    validate_schema full_schema = .ok () ∧
    full_schema.template.name ≠ "" ∧
    (semver_parse full_schema.template.version).isSome = true := by
  have h : validate_schema full_schema = .ok () := rfl
  have hc := validated_schema_invariants full_schema h
  exact ⟨h, hc.1, hc.2.2.2.2.1⟩

/-- C8: boolean parameter validation accepts exactly the strings whose
lowercasing is one of the six tokens true, false, yes, no, 1, 0. -/
theorem boolean_validation_set (b : Bool) (dsc : Option String) (v : String) :
    Parameter.validate (.boolean b dsc) v = .ok () ↔
      to_lowercase v ∈ boolean_tokens := by
  have hc : (boolean_tokens.contains (to_lowercase v) = true) ↔
      to_lowercase v ∈ boolean_tokens := by simp
  simp only [Parameter.validate]
  by_cases h : boolean_tokens.contains (to_lowercase v) = true
  · rw [if_pos h]
    simp [hc.mp h]
  · rw [if_neg h]
    constructor
    · intro hx; exact Except.noConfusion hx
    · intro hmem; exact absurd (hc.mpr hmem) h

theorem boolean_validation_set_witness :
    to_lowercase "YES" ∈ boolean_tokens ∧
    Parameter.validate (.boolean true none) "YES" = .ok () ∧
    ¬ to_lowercase "maybe" ∈ boolean_tokens ∧
    Parameter.validate (.boolean true none) "maybe" ≠ .ok () := by
  refine ⟨by decide, ?_, by decide, ?_⟩
  · exact (boolean_validation_set true none "YES").mpr (by decide)
  · intro hc
    exact absurd ((boolean_validation_set true none "maybe").mp hc) (by decide)

/-- C9: a file whose extension is (case-insensitively) in the fixed
binary set is copied to the destination with its content byte-identical,
for every content — in particular the content never goes through the
substitution engine, which would rewrite a rendering text file. -/
theorem binary_extension_copied (nm ext : String) (c : Content) (fs : DestFs)
    (destPath : List String) (params : String → Option String)
    (hext : path_extension nm = some ext)
    (hbin : binary_extensions.contains (to_lowercase ext) = true)
    (hdir : has_dir fs destPath.dropLast = true) :
    render_file fs nm destPath c params =
      .ok { fs with files := fs.files ++ [(destPath, c)] } := by
  have hb : is_binary_file nm = true := by
    simp only [is_binary_file, hext]
    exact hbin
  simp only [render_file, hb, if_true, copy_file, hdir]

theorem binary_extension_copied_witness :
    path_extension "logo.png" = some "png" ∧
    binary_extensions.contains (to_lowercase "png") = true ∧
    has_dir (DestFs.mk [[]] []) ([] : List String) = true ∧
    render_file (DestFs.mk [[]] []) "logo.png" ["logo.png"]
      (.binaryData [137, 80, 78, 71]) (fun _ => none) =
      .ok (DestFs.mk [[]] [(["logo.png"], .binaryData [137, 80, 78, 71])]) := by
  refine ⟨rfl, rfl, rfl, ?_⟩
  exact binary_extension_copied "logo.png" "png" (.binaryData [137, 80, 78, 71])
    (DestFs.mk [[]] []) ["logo.png"] (fun _ => none) rfl rfl rfl

/-- C10: a file whose name has no extension at all is classified as text:
bytes that are not valid UTF-8 make rendering fail with a `RenderError`
rather than falling back to a verbatim copy, and valid text goes through
the substitution engine before being written. -/
theorem no_extension_is_text (nm : String)
    (h : path_extension nm = none) :
    is_binary_file nm = false ∧
    (∀ bs fs destPath params,
      render_file fs nm destPath (.binaryData bs) params =
        .error (.renderError "Cannot read file: stream did not contain valid UTF-8")) ∧
    (∀ s fs destPath params ns, parse_liquid s = some ns →
      has_dir fs destPath.dropLast = true →
      render_file fs nm destPath (.text s) params =
        .ok { fs with files := fs.files ++ [(destPath, .text (eval_nodes params ns))] }) := by
  have hb : is_binary_file nm = false := by
    simp [is_binary_file, h]
  refine ⟨hb, ?_, ?_⟩
  · intro bs fs destPath params
    simp [render_file, hb]
  · intro s fs destPath params ns hp hdir
    simp only [render_file, hb, Bool.false_eq_true, if_false, render_content, hp,
      write_file, hdir, if_true]

theorem no_extension_is_text_witness :
    path_extension "Makefile" = none ∧
    is_binary_file "Makefile" = false ∧
    render_file (DestFs.mk [[]] []) "Makefile" ["Makefile"]
      (.binaryData [255, 0]) (fun _ => none) =
      .error (.renderError "Cannot read file: stream did not contain valid UTF-8") := by
  refine ⟨rfl, ?_, ?_⟩
  · exact (no_extension_is_text "Makefile" rfl).1
  · exact (no_extension_is_text "Makefile" rfl).2.1 [255, 0] (DestFs.mk [[]] [])
      ["Makefile"] (fun _ => none)

/-- C2 (code behaviour at the claimed property's failing inputs): the
walk filter drops only entries literally named `.git` or `x402.toml`, not
their descendants.  With a subdirectory inside `.git`, rendering succeeds
but the destination contains `.git/objects` and the file under it; with a
file directly inside `.git`, rendering aborts with a `FileSystemError`
because the skipped `.git` directory was never created at the
destination.  Both contradict the claimed exclusion of everything under
`.git`. -/
theorem git_exclusion_violated :
    render git_subtree_source (fun _ => none) =
      .ok (DestFs.mk [[], [".git"], [".git", "objects"]]
        [(["README.md"], Content.text "hello"),
         ([".git", "objects", "pack"], Content.text "P")]) ∧
    render git_file_source (fun _ => none) =
      .error (.fileSystemError "Cannot write file: No such file or directory") :=
  ⟨rfl, rfl⟩

/-- C5: for a manifest that passes all other checks and declares a String
parameter with a (compiling) pattern and a default, `load_and_validate`
accepts it exactly when the default matches the pattern under the
engine's search-anywhere semantics; a mismatch is reported on the field
`parameters.<name>.default`. -/
theorem string_pattern_default_consistency
    (s : TemplateSchema) (nm dft patS : String) (dsc : Option String)
    (ps : List (String × Parameter)) (r : CompiledRegex)
    (hmeta : validate_metadata s.template = .ok ())
    (hfiles : validate_files_part s.files = .ok ())
    (hparams : s.parameters = some ps)
    (hmem : (nm, Parameter.string dft (some patS) dsc) ∈ ps)
    (hothers : ∀ q ∈ ps, q ≠ (nm, Parameter.string dft (some patS) dsc) →
      validate_parameter q.1 q.2 = .ok ())
    (hcomp : regex_compile patS = some r) :
    (load_and_validate (.ok s) = .ok s ↔ regex_is_match r dft = true) ∧
    (regex_is_match r dft = false →
      load_and_validate (.ok s) = .error (.validationError
        ("parameters." ++ nm ++ ".default")
        ("Value '" ++ dft ++ "' does not match pattern '" ++ patS ++ "'"))) := by
  have hval : Parameter.validate (.string dft (some patS) dsc) dft =
      (if regex_is_match r dft then Except.ok ()
       else Except.error
         ("Value '" ++ dft ++ "' does not match pattern '" ++ patS ++ "'")) := by
    simp only [Parameter.validate, hcomp]
  have hvp : validate_parameter nm (.string dft (some patS) dsc) =
      (if regex_is_match r dft then Except.ok ()
       else Except.error (.validationError ("parameters." ++ nm ++ ".default")
         ("Value '" ++ dft ++ "' does not match pattern '" ++ patS ++ "'"))) := by
    simp only [validate_parameter, hcomp, hval]
    by_cases hm2 : regex_is_match r dft = true <;> simp [hm2]
  constructor
  · rw [load_and_validate_ok_iff, validate_schema_ok_iff]
    constructor
    · rintro ⟨-, hpp, -⟩
      rw [hparams] at hpp
      simp only [validate_params_part] at hpp
      have hours : validate_parameter nm (.string dft (some patS) dsc) = .ok () :=
        (validate_params_loop_ok_iff ps).mp hpp _ hmem
      rw [hvp] at hours
      by_cases hm2 : regex_is_match r dft = true
      · exact hm2
      · rw [if_neg hm2] at hours
        exact Except.noConfusion hours
    · intro hm2
      refine ⟨hmeta, ?_, hfiles⟩
      rw [hparams]
      simp only [validate_params_part]
      rw [validate_params_loop_ok_iff]
      intro q hq
      by_cases hqe : q = (nm, Parameter.string dft (some patS) dsc)
      · subst hqe
        show validate_parameter nm (Parameter.string dft (some patS) dsc) = .ok ()
        rw [hvp, if_pos hm2]
      · exact hothers q hq hqe
  · intro hm2
    have hours : validate_parameter nm (.string dft (some patS) dsc) =
        .error (.validationError ("parameters." ++ nm ++ ".default")
          ("Value '" ++ dft ++ "' does not match pattern '" ++ patS ++ "'")) := by
      rw [hvp, if_neg (by simp [hm2])]
    cases hl : validate_params_loop ps with
    | ok u =>
      cases u
      have hok : validate_parameter nm (.string dft (some patS) dsc) = .ok () :=
        (validate_params_loop_ok_iff ps).mp hl _ hmem
      rw [hours] at hok
      exact Except.noConfusion hok
    | error e =>
      obtain ⟨q, hqm, hqe⟩ := validate_params_loop_error_mem ps e hl
      have hqeq : q = (nm, Parameter.string dft (some patS) dsc) := by
        by_contra hne
        have hqok := hothers q hqm hne
        rw [hqok] at hqe
        exact Except.noConfusion hqe
      subst hqeq
      have he2 : validate_parameter nm (.string dft (some patS) dsc) = .error e := hqe
      rw [hours] at he2
      injection he2 with he3
      have hvs : validate_schema s = .error e := by
        simp only [validate_schema, hmeta, hparams, validate_params_part, hl]
      rw [← he3] at hvs
      exact load_and_validate_error_of s _ hvs

theorem string_pattern_default_consistency_witness :
    validate_metadata p2_schema.template = .ok () ∧
    regex_compile p2_pattern = some p2_regex ∧
    regex_is_match p2_regex "my-app" = true ∧
    regex_is_match p2_regex "My-App" = false ∧
    load_and_validate (.ok p2_schema) = .ok p2_schema := by
  refine ⟨rfl, rfl, rfl, rfl, ?_⟩
  have h := string_pattern_default_consistency p2_schema "app_name" "my-app"
    p2_pattern none [("app_name", .string "my-app" (some p2_pattern) none)] p2_regex
    rfl rfl rfl (by simp)
    (by intro q hq hne
        simp only [List.mem_singleton] at hq
        exact absurd hq hne)
    rfl
  exact h.1.mpr rfl

/-- C7: for a manifest that passes all other checks and declares an Enum
parameter, `load_and_validate` accepts it exactly when the choice list is
non-empty and the default is an exact member of it. -/
theorem enum_default_membership
    (s : TemplateSchema) (nm dft : String) (choices : List String)
    (dsc : Option String) (ps : List (String × Parameter))
    (hmeta : validate_metadata s.template = .ok ())
    (hfiles : validate_files_part s.files = .ok ())
    (hparams : s.parameters = some ps)
    (hmem : (nm, Parameter.enum choices dft dsc) ∈ ps)
    (hothers : ∀ q ∈ ps, q ≠ (nm, Parameter.enum choices dft dsc) →
      validate_parameter q.1 q.2 = .ok ()) :
    load_and_validate (.ok s) = .ok s ↔ (choices ≠ [] ∧ dft ∈ choices) := by
  rw [load_and_validate_ok_iff, validate_schema_ok_iff]
  constructor
  · rintro ⟨-, hpp, -⟩
    rw [hparams] at hpp
    simp only [validate_params_part] at hpp
    have hours : validate_parameter nm (.enum choices dft dsc) = .ok () :=
      (validate_params_loop_ok_iff ps).mp hpp _ hmem
    exact (validate_parameter_enum_ok_iff nm choices dft dsc).mp hours
  · intro hc
    refine ⟨hmeta, ?_, hfiles⟩
    rw [hparams]
    simp only [validate_params_part]
    rw [validate_params_loop_ok_iff]
    intro q hq
    by_cases hqe : q = (nm, Parameter.enum choices dft dsc)
    · subst hqe
      show validate_parameter nm (Parameter.enum choices dft dsc) = .ok ()
      exact (validate_parameter_enum_ok_iff nm choices dft dsc).mpr hc
    · exact hothers q hq hqe

theorem enum_default_membership_witness :
    validate_metadata p3_schema.template = .ok () ∧
    (["postgres", "sqlite"] ≠ ([] : List String) ∧ "postgres" ∈ ["postgres", "sqlite"]) ∧
    load_and_validate (.ok p3_schema) = .ok p3_schema := by
  refine ⟨rfl, ⟨by decide, by decide⟩, ?_⟩
  have h := enum_default_membership p3_schema "db" "postgres"
    ["postgres", "sqlite"] none [("db", .enum ["postgres", "sqlite"] "postgres" none)]
    rfl rfl rfl (by simp)
    (by intro q hq hne
        simp only [List.mem_singleton] at hq
        exact absurd hq hne)
  exact h.mpr ⟨by decide, by decide⟩

end CargoX402
